import Mathlib

/-!
# Verification of the image-tools plugin's transformation core

This file gives a shallow embedding, in Lean 4, of the image-transformation
layer of the `koishi-plugin-image-tools` repository (`src/ops.ts`,
`src/op-utils.ts` / the operations module, `src/utils.ts`) and proves or
refutes the frozen specification claims about it.

Modelling conventions:
* `MemoryImage` frame sequences become `List Frame`; a frame records its
  width, height, frame duration (in milliseconds, as an exact rational to
  mirror JavaScript number arithmetic) and a symbolic pixel buffer `Pix`.
* Pixel buffers are modelled symbolically: `Pix.buf n` is an original
  decoded buffer, `Pix.clone p` is the detached copy made by
  `MemoryImage.from(f, true)`, `Pix.convert4 p` is `convert({numChannels: 4})`,
  `Pix.resized p w h` is `Transform.copyResize` to `w`×`h` (cubic), and
  `Pix.composited p w h` is `Draw.compositeImage` of `p` centered onto a
  freshly allocated transparent 4-channel `w`×`h` canvas.
* JavaScript `Math.round` becomes `jsRound`, `Math.floor` becomes `Int.floor`
  / `Nat` division, exact rational arithmetic replaces IEEE doubles.
* Fallible operations return `Except OpErr`, with one `OpErr` constructor per
  `OperationError` message key that the embedded operations can raise.
* The regular expressions of the source are embedded as executable anchored
  matchers over `List Char`, with the same greedy/backtracking semantics on
  the sublanguage they accept.
-/

namespace ImageTools

/-- `Math.round` of JavaScript: round half away from zero upwards,
`Math.round x = ⌊x + 1/2⌋`. -/
def jsRound (q : ℚ) : ℤ := ⌊q + 1/2⌋

/-- Symbolic pixel buffers.  `buf` is an original decoded buffer; the other
constructors record the image-in-browser operations applied by the source:
`clone` is `MemoryImage.from(f, true)` (a detached copy of the pixel data,
without animation frames), `convert4` is `convert({numChannels: 4})`,
`resized p w h` is `Transform.copyResize` to `w`×`h`, and
`composited p w h` is `Draw.compositeImage({src: p, dst: transparent w×h
canvas, center: true})`. -/
inductive Pix where
  | buf (id : ℕ)
  | clone (p : Pix)
  | convert4 (p : Pix)
  | resized (p : Pix) (w h : ℕ)
  | composited (p : Pix) (w h : ℕ)
  deriving DecidableEq, Repr

/-- The pixel *content* of a buffer: a clone holds exactly the same pixels as
the buffer it was cloned from, so content is obtained by stripping `clone`
wrappers. -/
def Pix.core : Pix → Pix
  | .clone p => p.core
  | p => p

/-- One frame of a (possibly animated) `MemoryImage`: dimensions, the
`frameDuration` in milliseconds, and its pixel buffer. -/
structure Frame where
  width : ℕ
  height : ℕ
  dur : ℚ
  pix : Pix
  deriving DecidableEq, Repr

/-- The observable content of a frame: dimensions, duration, and pixel
content (buffer identity forgotten). -/
def Frame.core (f : Frame) : ℕ × ℕ × ℚ × Pix :=
  (f.width, f.height, f.dur, f.pix.core)

/-- Typed operation errors, one constructor per `OperationError` message key
reachable from the embedded operations, carrying the same substitution
parameters the source passes (`fps-exceed-range-warn` carries the computed
average duration; the source formats it with `toFixed(2)` for display, the
model carries the exact value). -/
inductive OpErr where
  | imageMustAnimated
  | invalidArgFormat
  | invalidColor (color : String)
  | valueTooSmall (value min : ℚ)
  | fpsExceedRangeWarn (avg : ℚ)
  | imageNotEnough (min : ℕ)
  | imageAnimatedWarn
  deriving DecidableEq, Repr

instance {ε α : Type} [DecidableEq ε] [DecidableEq α] :
    DecidableEq (Except ε α) := fun a b =>
  match a, b with
  | .ok x, .ok y =>
    if h : x = y then .isTrue (by rw [h]) else .isFalse (by simp [h])
  | .error x, .error y =>
    if h : x = y then .isTrue (by rw [h]) else .isFalse (by simp [h])
  | .ok _, .error _ => .isFalse (by simp)
  | .error _, .ok _ => .isFalse (by simp)

/-! ## `gifReverse` (src/ops.ts lines 211–218)

```ts
export async function gifReverse(image: MemoryImage): Promise<Blob> {
  ou.ensureAnimation(image)
  const { frames } = image
  const firstFrame = MemoryImage.from(frames[0], true)
  const newImage = frames[frames.length - 1]
  newImage.frames.push(...frames.slice(1, -1).reverse(), firstFrame)
  return ou.imageSave(newImage)
}
```

`ensureAnimation` throws `.image-must-animated` unless `hasAnimation`
(i.e. more than one frame).  The result's frame list is the original last
frame (reused in place, it becomes the primary frame), then the middle
frames `frames.slice(1, -1)` reversed, then a detached clone of the
original first frame. -/

/-- Embedded `gifReverse`. -/
def gifReverse (fs : List Frame) : Except OpErr (List Frame) :=
  match fs with
  | [] => .error .imageMustAnimated
  | [_] => .error .imageMustAnimated
  | f0 :: r1 :: rs =>
    let rest := r1 :: rs
    let lastF := rest.getLast (List.cons_ne_nil r1 rs)
    let middle := rest.dropLast
    .ok (lastF :: (middle.reverse ++ [{ f0 with pix := .clone f0.pix }]))

/-! ## `OperationError` (operations module lines 220–236, src/utils.ts line 8)

```ts
export const name = 'image-tools'          // utils.ts

export class OperationError extends Error {
  readonly name = 'OperationError'
  readonly i18nPath: string
  constructor(i18nPath: string, public readonly i18nParams: any[] = []) {
    if (i18nPath.startsWith('.')) {
      i18nPath = `${name}.errors${i18nPath}`
    } else if (i18nPath.startsWith('^')) {
      i18nPath = i18nPath.replace('^', '.')
    }
    super(i18nPath)
    this.i18nPath = i18nPath
  }
}
```
-/

/-- `name` exported by `src/utils.ts`. -/
def pluginName : String := "image-tools"

/-- A substitution parameter of an `OperationError` (the source uses
heterogeneous `any[]`; numbers and strings occur). -/
inductive ErrParam where
  | str (s : String)
  | num (q : ℚ)
  deriving DecidableEq, Repr

/-- The `OperationError` object: the rewritten localization path and the
ordered substitution parameters. -/
structure OperationError where
  i18nPath : String
  i18nParams : List ErrParam
  deriving DecidableEq, Repr

/-- JavaScript `String.prototype.replace` with a string pattern replaces only
the first occurrence; `i18nPath.replace('^', '.')` on a list of characters. -/
def replaceFirstCaret : List Char → List Char
  | [] => []
  | c :: cs => if c = '^' then '.' :: cs else c :: replaceFirstCaret cs

/-- `s.startsWith(c)` for a one-character pattern: the first character is
`c`. -/
def strHeadIs (c : Char) (s : String) : Bool :=
  match s.toList with
  | [] => false
  | a :: _ => a = c

/-- The `OperationError` constructor's i18n-path rewriting. -/
def OperationError.make (i18nPath : String) (i18nParams : List ErrParam := []) :
    OperationError :=
  if strHeadIs '.' i18nPath then
    { i18nPath := pluginName ++ ".errors" ++ i18nPath, i18nParams }
  else if strHeadIs '^' i18nPath then
    { i18nPath := String.mk (replaceFirstCaret i18nPath.toList), i18nParams }
  else
    { i18nPath, i18nParams }

/-! ## Ratio size spec (operations module lines 393–403)

```ts
export const getRatioMatchReg = (width: number, height: number) =>
  [
    /^(?<pw>\d{1,2})[:：比](?<ph>\d{1,2})$/,
    (res: RegExpExecArray): [number, number] => {
      const pw = parseInt(res.groups!.pw)
      const ph = parseInt(res.groups!.ph)
      if (pw <= 0 || ph <= 0) throw new OperationError('.invalid-arg-format')
      const size = Math.min(width / pw, width / ph)
      return [Math.floor(pw * size), Math.floor(ph * size)]
    },
  ] as const
```

The two regex groups are 1–2 digit numbers; the computation below is the
matcher body after extraction, for `pw, ph ≥ 1` (the `pw <= 0 || ph <= 0`
guard has already passed).  Note both `Math.min` operands divide the source
*width*. -/

/-- The dimensions produced by the ratio size-spec matcher for a source of
size `w`×`h` and a matched ratio `pw:ph`. -/
def ratioSize (w h pw ph : ℕ) : ℤ × ℤ :=
  let size : ℚ := min ((w : ℚ) / pw) ((w : ℚ) / ph)
  (⌊(pw : ℚ) * size⌋, ⌊(ph : ℚ) * size⌋)

/-! ## Rate-spec parsing (src/ops.ts lines 237–268)

`gifChangeFps` feeds its string argument through `matchRegExps` with four
anchored patterns, tried in order:

```
/^(?<x>\d{0,3}\.?\d{1,3})(x|X|倍速?)$/          multiplier
/^(?<p>\d{0,3}\.?\d{1,3})%$/                    percentage
/^(?<fps>\d{0,3}\.?\d{1,3})(fps|FPS)$/          absolute fps
/^(?<time>\d{0,3}\.?\d{1,3})(?<m>m)?s$/         absolute duration
```

Each number group is `\d{0,3}\.?\d{1,3}` and is read with `parseFloat`.
Since every pattern is a number group followed by a fixed suffix drawn from
characters that cannot occur inside the number, an anchored match
decomposes uniquely: the string must end with one of the suffix literals
and the rest must fully match the number pattern. -/

/-- Numeric value of a list of decimal digits (the digits are already
validated). -/
def natOfDigits (cs : List Char) : ℕ :=
  cs.foldl (fun a c => 10 * a + (c.toNat - '0'.toNat)) 0

/-- Anchored match of the number group `\d{0,3}\.?\d{1,3}` together with its
`parseFloat` value: either 1–6 digits, or 0–3 digits, a dot, and 1–3
digits. -/
def numFull (cs : List Char) : Option ℚ :=
  if cs.all Char.isDigit then
    if 1 ≤ cs.length ∧ cs.length ≤ 6 then some (natOfDigits cs) else none
  else
    let intPart := cs.takeWhile (fun c => c ≠ '.')
    let rest := cs.dropWhile (fun c => c ≠ '.')
    match rest with
    | '.' :: fracPart =>
      if intPart.all Char.isDigit ∧ intPart.length ≤ 3 ∧
          fracPart.all Char.isDigit ∧ 1 ≤ fracPart.length ∧
          fracPart.length ≤ 3 then
        some ((natOfDigits intPart : ℚ) +
          (natOfDigits fracPart : ℚ) / (10 ^ fracPart.length : ℕ))
      else none
    | _ => none

/-- Whether `cs` ends with the literal `sfx`; on success, the part before
the suffix. -/
def stripEndLiteral (sfx : List Char) (cs : List Char) : Option (List Char) :=
  if sfx.length ≤ cs.length ∧ cs.drop (cs.length - sfx.length) = sfx then
    some (cs.take (cs.length - sfx.length))
  else none

/-- Multiplier pattern `^number(x|X|倍速?)$`; returns the `parseFloat` of the
number group. -/
def matchMult (s : String) : Option ℚ :=
  let cs := s.toList
  match stripEndLiteral ['x'] cs with
  | some pre => numFull pre
  | none =>
    match stripEndLiteral ['X'] cs with
    | some pre => numFull pre
    | none =>
      match stripEndLiteral ['倍', '速'] cs with
      | some pre => numFull pre
      | none =>
        match stripEndLiteral ['倍'] cs with
        | some pre => numFull pre
        | none => none

/-- Percentage pattern `^number%$`. -/
def matchPct (s : String) : Option ℚ :=
  match stripEndLiteral ['%'] s.toList with
  | some pre => numFull pre
  | none => none

/-- Absolute-fps pattern `^number(fps|FPS)$`. -/
def matchFps (s : String) : Option ℚ :=
  let cs := s.toList
  match stripEndLiteral ['f', 'p', 's'] cs with
  | some pre => numFull pre
  | none =>
    match stripEndLiteral ['F', 'P', 'S'] cs with
    | some pre => numFull pre
    | none => none

/-- Absolute-duration pattern `^number(m)?s$`; returns the number and
whether the optional `m` group matched. -/
def matchDur (s : String) : Option (ℚ × Bool) :=
  match stripEndLiteral ['s'] s.toList with
  | some pre =>
    match stripEndLiteral ['m'] pre with
    | some pre2 =>
      -- the greedy `(?<m>m)?` consumes a trailing `m`; a number group
      -- cannot end in `m`, so this decomposition is the only candidate
      match numFull pre2 with
      | some t => some (t, true)
      | none => none
    | none =>
      match numFull pre with
      | some t => some (t, false)
      | none => none
  | none => none

/-! ## `gifChangeFps` (src/ops.ts lines 227–278)

```ts
export async function gifChangeFps(image, _, { args: [fps], options: { force } }) {
  ou.ensureAnimation(image)
  const originalFrameTimes = image.frames.map((v) => v.frameDuration)
  const frameTimes = ou.matchRegExps<number[]>(fps, [
    [multiplier,  (m) => originalFrameTimes.map((v) => Math.round(v / x))],
    [percentage,  (m) => originalFrameTimes.map((v) => Math.round(v / p))],  // p = pct / 100
    [absoluteFps, (m) => { const time = Math.round(1000 / fps)
                           return originalFrameTimes.map(() => time) }],
    [duration,    (m) => { const t = parseFloat(time)
                           const m2 = Math.round(m ? t * 1000 : t)
                           return originalFrameTimes.map(() => m2) }],
  ])
  if (!force && frameTimes.some((v) => v < 20)) {
    throw new ou.OperationError('.fps-exceed-range-warn', [
      (frameTimes.reduce((a, b) => a + b, 0) / frameTimes.length).toFixed(2),
    ])
  }
  for (let i = 0; i < frameTimes.length; i += 1) {
    image.frames[i].frameDuration = frameTimes[i]
  }
  return ou.imageSave(image)
}
```

Note the duration branch computes `time * 1000` when the `m` group (the
`ms` suffix) IS present and the bare value for the `s` suffix. -/

/-- Embedded `gifChangeFps`: takes the image's frame list, the rate-spec
string and the `force` option, returns the retimed frames or the
`OperationError` the source throws.  The low-duration check precedes the
mutation loop, so on error every frame's duration is untouched. -/
def gifChangeFps (fs : List Frame) (spec : String) (force : Bool) :
    Except OpErr (List Frame) :=
  if fs.length ≤ 1 then .error .imageMustAnimated else
  let orig := fs.map (·.dur)
  let frameTimes? : Option (List ℚ) :=
    match matchMult spec with
    | some x => some (orig.map (fun v => (jsRound (v / x) : ℚ)))
    | none =>
      match matchPct spec with
      | some p => some (orig.map (fun v => (jsRound (v / (p / 100)) : ℚ)))
      | none =>
        match matchFps spec with
        | some fps =>
          let time : ℚ := (jsRound (1000 / fps) : ℚ)
          some (orig.map (fun _ => time))
        | none =>
          match matchDur spec with
          | some (t, m) =>
            let mv : ℚ := (jsRound (if m then t * 1000 else t) : ℚ)
            some (orig.map (fun _ => mv))
          | none => none
  match frameTimes? with
  | none => .error .invalidArgFormat
  | some frameTimes =>
    if force = false ∧ frameTimes.any (fun v => v < 20) then
      .error (.fpsExceedRangeWarn
        ((frameTimes.foldl (· + ·) 0) / (frameTimes.length : ℚ)))
    else
      .ok (fs.zipWith (fun f t => { f with dur := t }) frameTimes)

/-! ## `gifJoin` (src/ops.ts lines 285–329)

```ts
export async function gifJoin(images, _, { options: { duration, force } }) {
  ou.ensureBigger(duration, 0)
  duration ??= 100
  if (!force && duration < 20) {
    throw new ou.OperationError('.fps-exceed-range-warn', [duration])
  }
  const frames = images.map((v) => v.frames).flat()
  ou.ensureMinImageNum(frames)
  const width = frames.map((v) => v.width).reduce((a, b) => Math.max(a, b))
  const height = frames.map((v) => v.height).reduce((a, b) => Math.max(a, b))
  let newImage = null
  for (const f of frames) {
    const noFrameF = MemoryImage.from(f, true).convert({ numChannels: 4 })
    const fSized = (() => {
      if (width === f.width && height === f.height) return noFrameF
      const scale = Math.min(width / f.width, height / f.height)
      const scaleWidth = Math.round(f.width * scale)
      const scaleHeight = Math.round(f.height * scale)
      return Draw.compositeImage({
        src: Transform.copyResize({ width: scaleWidth, height: scaleHeight,
                                    image: noFrameF, interpolation: cubic }),
        dst: new MemoryImage({ width, height, numChannels: 4 }),
        center: true,
      })
    })()
    fSized.frameDuration = duration
    if (newImage) newImage.addFrame(fSized); else newImage = fSized
  }
  return ou.imageSave(newImage!)
}
```

`ensureBigger(duration, 0)` throws `.value-too-small` with params
`[value, min]` when the option is given and below 0; `ensureMinImageNum`
throws `.image-not-enough` with param `[2]` when fewer than 2 pooled frames
exist.  `reduce` without a seed over the (nonempty, length ≥ 2) frame pool
is the maximum, which over `ℕ` equals a fold with seed 0. -/

/-- The body of the per-frame normalization closure of `gifJoin`: `W`,`H` is
the common canvas size, `d` the (defaulted) duration option. -/
def gifJoinSizeFrame (W H : ℕ) (d : ℚ) (f : Frame) : Frame :=
  let noFrameF : Pix := .convert4 (.clone f.pix)
  if W = f.width ∧ H = f.height then
    { f with dur := d, pix := noFrameF }
  else
    let scale : ℚ := min ((W : ℚ) / f.width) ((H : ℚ) / f.height)
    let scaleWidth := (jsRound ((f.width : ℚ) * scale)).toNat
    let scaleHeight := (jsRound ((f.height : ℚ) * scale)).toNat
    { width := W, height := H, dur := d,
      pix := .composited (.resized noFrameF scaleWidth scaleHeight) W H }

/-- Embedded `gifJoin`: takes each input image as its frame list and the
`duration`/`force` options, returns the frame list of the joined animation
or the `OperationError` the source throws, in source order of the checks. -/
def gifJoin (images : List (List Frame)) (duration : Option ℚ) (force : Bool) :
    Except OpErr (List Frame) :=
  match duration with
  | some v =>
    if v < 0 then .error (.valueTooSmall v 0) else gifJoinChecked images v force
  | none => gifJoinChecked images 100 force
where
  /-- `gifJoin` after `ensureBigger` and the `??= 100` default. -/
  gifJoinChecked (images : List (List Frame)) (d : ℚ) (force : Bool) :
      Except OpErr (List Frame) :=
    if force = false ∧ d < 20 then .error (.fpsExceedRangeWarn d)
    else
      let frames := images.flatMap id
      if frames.length < 2 then .error (.imageNotEnough 2)
      else
        let W := (frames.map (·.width)).foldl max 0
        let H := (frames.map (·.height)).foldl max 0
        .ok (frames.map (gifJoinSizeFrame W H d))

/-! ## Grid crops (src/ops.ts lines 331–358, operations module lines 710–721)

```ts
export function cropToGrids(image, boxes) {
  const size = Math.min(image.width, image.height)
  image = Transform.copyResizeCropSquare({ image, size })
  if (boxes instanceof Function) boxes = boxes(size)
  const imgs = boxes.map(([x, y, w, h]) =>
    Transform.copyCrop({ image, rect: new Rectangle(x, y, w, h) }),
  )
  return Promise.all(imgs.map((v) => imageSave(v)))
}

export async function fourGrid(image: MemoryImage): Promise<Blob[]> {
  return ou.cropToGrids(image, (w) => {
    const a = Math.ceil(w / 2)
    return [[0, 0, a, a], [a, 0, a * 2, a], [0, a, a, a * 2], [a, a, a * 2, a * 2]]
  })
}

export async function nineGrid(image: MemoryImage): Promise<Blob[]> {
  return ou.cropToGrids(image, (w) => {
    const a = Math.ceil(w / 3)
    return [[0, 0, a, a], [a, 0, a * 2, a], [a * 2, 0, w, a],
            [0, a, a, a * 2], [a, a, a * 2, a * 2], [a * 2, a, w, a * 2],
            [0, a * 2, a, w], [a, a * 2, a * 2, w], [a * 2, a * 2, w, w]]
  })
}
```

The box entries are corner coordinates `(x1, y1, x2, y2)` — the
`image-in-browser` `Rectangle` constructor takes two corner points, unlike
`Rectangle.fromXYWH` used elsewhere. -/

/-- A rectangle given by its two corners `(x1, y1, x2, y2)`, in the
coordinates of the cropped square. -/
structure Rect where
  x1 : ℕ
  y1 : ℕ
  x2 : ℕ
  y2 : ℕ
  deriving DecidableEq, Repr

/-- Modelled from the spec: `Transform.copyCrop` (from the external
`image-in-browser` library, not part of this repository's sources) clips the
crop rectangle to the image bounds — per the spec, "with the final
row/column clipped to the square's true edge, not overshooting".  For a
square image of side `size`, each corner coordinate is clamped to `size`. -/
def clipRect (size : ℕ) (r : Rect) : Rect :=
  { x1 := min r.x1 size, y1 := min r.y1 size,
    x2 := min r.x2 size, y2 := min r.y2 size }

/-- Modelled from the spec: `Transform.copyResizeCropSquare` (external
library) crops the source to a centered square of side `size = min(width,
height)`; the model records the top-left offset of that square and its
side. -/
def centeredSquare (w h : ℕ) : ℕ × ℕ × ℕ :=
  let size := min w h
  ((w - size) / 2, (h - size) / 2, size)

/-- The grid boxes of `fourGrid` for a square of side `w`:
`a = Math.ceil(w / 2) = (w + 1) / 2`. -/
def fourGridBoxes (w : ℕ) : List Rect :=
  let a := (w + 1) / 2
  [⟨0, 0, a, a⟩, ⟨a, 0, a * 2, a⟩, ⟨0, a, a, a * 2⟩, ⟨a, a, a * 2, a * 2⟩]

/-- The grid boxes of `nineGrid` for a square of side `w`:
`a = Math.ceil(w / 3) = (w + 2) / 3`. -/
def nineGridBoxes (w : ℕ) : List Rect :=
  let a := (w + 2) / 3
  [⟨0, 0, a, a⟩, ⟨a, 0, a * 2, a⟩, ⟨a * 2, 0, w, a⟩,
   ⟨0, a, a, a * 2⟩, ⟨a, a, a * 2, a * 2⟩, ⟨a * 2, a, w, a * 2⟩,
   ⟨0, a * 2, a, w⟩, ⟨a, a * 2, a * 2, w⟩, ⟨a * 2, a * 2, w, w⟩]

/-- Embedded `cropToGrids` composed with a box table: the centered square's
offset and side, and the emitted cells after `copyCrop` clipping. -/
def cropToGrids (w h : ℕ) (boxes : ℕ → List Rect) :
    (ℕ × ℕ × ℕ) × List Rect :=
  let sq := centeredSquare w h
  let size := sq.2.2
  (sq, (boxes size).map (clipRect size))

/-- Embedded `fourGrid` (cell geometry). -/
def fourGridCells (w h : ℕ) : (ℕ × ℕ × ℕ) × List Rect :=
  cropToGrids w h fourGridBoxes

/-- Embedded `nineGrid` (cell geometry). -/
def nineGridCells (w h : ℕ) : (ℕ × ℕ × ℕ) × List Rect :=
  cropToGrids w h nineGridBoxes

/-- Point membership in a cell (half-open on the far edges, the pixels a
crop rectangle covers). -/
def ptInRect (r : Rect) (p q : ℕ) : Prop :=
  r.x1 ≤ p ∧ p < r.x2 ∧ r.y1 ≤ q ∧ q < r.y2

instance (r : Rect) (p q : ℕ) : Decidable (ptInRect r p q) := by
  unfold ptInRect; infer_instance

/-! ## `parseColor` (operations module lines 424–471)

```ts
export function parseColor(color: string): RGBAColorTuple {
  const errorThrower = () => { throw new OperationError('.invalid-color', [color]) }
  return matchRegExps(color, [
    [ /^#?(?<hex>(?:[0-9a-fA-F]{3,4}){1,2})$/,
      (match) => {
        const { hex } = match.groups!
        if (hex.length < 6) {
          const parseOneCharHex = (hex) => parseInt(hex.repeat(2), 16)
          return [parseOneCharHex(hex[0]), parseOneCharHex(hex[1]),
                  parseOneCharHex(hex[2]),
                  hex.length === 4 ? parseOneCharHex(hex[3]) : 255]
        }
        return [parseInt(hex.slice(0, 2), 16), parseInt(hex.slice(2, 4), 16),
                parseInt(hex.slice(4, 6), 16),
                hex.length === 8 ? parseInt(hex.slice(6, 8), 16) : 255]
      } ],
    [ /^(rgba?)?\(?(?<r>\d{1,3})[,\s](?<g>\d{1,3})[,\s](?<b>\d{1,3})([,\s](?<a>\d{1,3}(\.\d)?))?\)?$/,
      (match) => {
        const checkVal = (val) => { if (val < 0 || val > 255) errorThrower(); return val }
        const parsedA = match.groups!.a ? parseFloat(match.groups!.a) : null
        return [checkVal(parseInt(match.groups!.r)),
                checkVal(parseInt(match.groups!.g)),
                checkVal(parseInt(match.groups!.b)),
                parsedA ? checkVal(parsedA < 1 ? parsedA * 255 : parsedA) : 255]
      } ],
  ], errorThrower)
}
```

The hex group `(?:[0-9a-fA-F]{3,4}){1,2}` anchored matches exactly the
all-hex strings of length 3, 4, 6, 7 or 8 (one block of 3–4 digits, or two).
The functional form is embedded as a backtracking matcher with the regex's
greedy semantics (quantifiers try longer matches first, optional groups try
matching first).  Note `checkVal` range-checks without rounding, and
`parsedA ? … : 255` takes the 255 branch when `parsedA` is `0` (falsy). -/

/-- Hex digit test, `[0-9a-fA-F]`. -/
def isHexDigit (c : Char) : Bool :=
  c.isDigit || ('a' ≤ c && c ≤ 'f') || ('A' ≤ c && c ≤ 'F')

/-- Value of one hex digit. -/
def hexVal (c : Char) : ℕ :=
  if c.isDigit then c.toNat - '0'.toNat
  else if 'a' ≤ c && c ≤ 'f' then c.toNat - 'a'.toNat + 10
  else c.toNat - 'A'.toNat + 10

/-- `parseInt(s, 16)` on validated hex digits. -/
def natOfHexDigits (cs : List Char) : ℕ :=
  cs.foldl (fun a c => 16 * a + hexVal c) 0

/-- Anchored match of `^#?((?:[0-9a-fA-F]{3,4}){1,2})$`, returning the hex
group.  The leading `#`, when present, must be consumed: it is not a hex
digit, so the group cannot cover it. -/
def matchHex (s : String) : Option (List Char) :=
  let cs := s.toList
  let rest := match cs with
    | '#' :: r => r
    | _ => cs
  if rest.all isHexDigit ∧ (rest.length = 3 ∨ rest.length = 4 ∨
      rest.length = 6 ∨ rest.length = 7 ∨ rest.length = 8) then
    some rest
  else none

/-- The hex branch of `parseColor` applied to the matched group. -/
def hexTuple (hex : List Char) : ℚ × ℚ × ℚ × ℚ :=
  if hex.length < 6 then
    -- parseOneCharHex c = parseInt(cc, 16) = 17 * hexVal c
    match hex with
    | c0 :: c1 :: c2 :: rest =>
      ((17 * hexVal c0 : ℕ), (17 * hexVal c1 : ℕ), (17 * hexVal c2 : ℕ),
        match rest with
        | [c3] => (17 * hexVal c3 : ℕ)
        | _ => 255)
    | _ => (0, 0, 0, 255)   -- unreachable: the group has length ≥ 3
  else
    ((natOfHexDigits (hex.take 2) : ℕ),
     (natOfHexDigits ((hex.drop 2).take 2) : ℕ),
     (natOfHexDigits ((hex.drop 4).take 2) : ℕ),
     if hex.length = 8 then (natOfHexDigits ((hex.drop 6).take 2) : ℕ) else 255)

/-- JavaScript `[,\s]`: a comma or one whitespace character. -/
def isSepChar (c : Char) : Bool :=
  c = ',' || c = ' ' || c = '\t' || c = '\n' || c = '\r' ||
  c = '\x0b' || c = '\x0c'

/-- The candidates of a greedy `\d{1,3}` group, longest first, with the
`parseInt` value and the remaining input. -/
def digitCandidates (cs : List Char) : List (ℕ × List Char) :=
  [3, 2, 1].filterMap (fun k =>
    let pre := cs.take k
    if pre.length = k ∧ pre.all Char.isDigit then
      some (natOfDigits pre, cs.drop k)
    else none)

/-- First candidate on which the continuation succeeds (regex
backtracking). -/
def firstSome {α β : Type} (f : α → Option β) : List α → Option β
  | [] => none
  | a :: as =>
    match f a with
    | some b => some b
    | none => firstSome f as

/-- The candidates of the alpha group `\d{1,3}(\.\d)?`, greedy (longer
digit runs first, fraction included before omitted), with the `parseFloat`
value. -/
def alphaCandidates (cs : List Char) : List (ℚ × List Char) :=
  (digitCandidates cs).flatMap (fun vr =>
    match vr.2 with
    | '.' :: d :: r =>
      if d.isDigit then
        [((vr.1 : ℚ) + ((d.toNat - '0'.toNat : ℕ) : ℚ) / 10, r),
         ((vr.1 : ℚ), vr.2)]
      else [((vr.1 : ℚ), vr.2)]
    | _ => [((vr.1 : ℚ), vr.2)])

/-- `\)?$`: nothing or a single closing parenthesis remains. -/
def rgbTailEnd (cs : List Char) : Bool :=
  match cs with
  | [] => true
  | [')'] => true
  | _ => false

/-- After the blue group: the optional `([,\s](?<a>\d{1,3}(\.\d)?))?`
(tried first, per greedy semantics), then `\)?$`. -/
def matchRgbAfterBlue (cs : List Char) : Option (Option ℚ) :=
  let withAlpha : Option (Option ℚ) :=
    match cs with
    | c :: rest =>
      if isSepChar c then
        firstSome (fun vr => if rgbTailEnd vr.2 then some (some vr.1) else none)
          (alphaCandidates rest)
      else none
    | [] => none
  match withAlpha with
  | some v => some v
  | none => if rgbTailEnd cs then some none else none

/-- The three color groups `(?<r>\d{1,3})[,\s](?<g>\d{1,3})[,\s](?<b>\d{1,3})`
followed by `matchRgbAfterBlue`, with backtracking over the digit-run
lengths. -/
def matchRgbBody (cs : List Char) : Option (ℕ × ℕ × ℕ × Option ℚ) :=
  firstSome (fun rr =>
    match rr.2 with
    | c1 :: cs2 =>
      if isSepChar c1 then
        firstSome (fun gr =>
          match gr.2 with
          | c2 :: cs4 =>
            if isSepChar c2 then
              firstSome (fun br =>
                match matchRgbAfterBlue br.2 with
                | some oa => some (rr.1, gr.1, br.1, oa)
                | none => none)
                (digitCandidates cs4)
            else none
          | [] => none)
          (digitCandidates cs2)
      else none
    | [] => none)
    (digitCandidates cs)

/-- The optional `\(?` before the first digit group: `(` is not a digit, so
when present it must be consumed. -/
def matchRgbAfterParen (cs : List Char) : Option (ℕ × ℕ × ℕ × Option ℚ) :=
  match cs with
  | '(' :: rest => matchRgbBody rest
  | _ => matchRgbBody cs

/-- Anchored match of the full functional color pattern, with the
`(rgba?)?` literal prefix alternatives tried greedily. -/
def matchRgb (s : String) : Option (ℕ × ℕ × ℕ × Option ℚ) :=
  let cs := s.toList
  let withRgba : Option (ℕ × ℕ × ℕ × Option ℚ) :=
    match cs with
    | 'r' :: 'g' :: 'b' :: 'a' :: rest => matchRgbAfterParen rest
    | _ => none
  match withRgba with
  | some v => some v
  | none =>
    match cs with
    | 'r' :: 'g' :: 'b' :: rest =>
      match matchRgbAfterParen rest with
      | some v => some v
      | none => matchRgbAfterParen cs
    | _ => matchRgbAfterParen cs

/-- `checkVal` of the functional branch: range check only, the value is
returned unchanged (no rounding). -/
def checkVal (color : String) (v : ℚ) : Except OpErr ℚ :=
  if v < 0 ∨ 255 < v then .error (.invalidColor color) else .ok v

/-- Embedded `parseColor`. -/
def parseColor (color : String) : Except OpErr (ℚ × ℚ × ℚ × ℚ) :=
  match matchHex color with
  | some hex => .ok (hexTuple hex)
  | none =>
    match matchRgb color with
    | some (r, g, b, oa) => do
      let rv ← checkVal color (r : ℚ)
      let gv ← checkVal color (g : ℚ)
      let bv ← checkVal color (b : ℚ)
      let av ← match oa with
        | none => pure (255 : ℚ)
        | some a =>
          -- `parsedA ? … : 255`: JavaScript treats 0 as falsy
          if a = 0 then pure (255 : ℚ)
          else checkVal color (if a < 1 then a * 255 else a)
      pure (rv, gv, bv, av)
    | none => .error (.invalidColor color)

/-! ## `horizontalJoin` (src/ops.ts lines 360–390)

```ts
export async function horizontalJoin(images, _, { options: { spacing, bgColor, force } }) {
  ou.ensureMinImageNum(images)
  ou.warnAnimation(images, force)
  spacing ??= 10
  const bgColorObj = new ColorRgba8(
    ...(bgColor ? ou.parseColor(bgColor) : ([0, 0, 0, 0] as ou.RGBAColorTuple)))
  const height = Math.max(...images.map((v) => v.height))
  const imagesNew = images.map((v) => Transform.copyResize({ image: v, height }))
  const width = imagesNew.reduce((a, b) => a + b.width + spacing, 0) - spacing
  const finalImg = new MemoryImage({ width, height, numChannels: 4 })
  finalImg.clear(bgColorObj)
  let offsetX = 0
  imagesNew.forEach((v, i) => {
    Draw.compositeImage({ src: v, dst: finalImg, dstX: offsetX })
    offsetX += v.width + spacing
  })
  return ou.imageSave(finalImg)
}
```

`ensureMinImageNum` requires ≥ 2 images; `warnAnimation` throws
`.image-animated-warn` when any input is animated and `force` is unset. -/

/-- Modelled from the spec: `Transform.copyResize({image, height})` (from
the external `image-in-browser` library, not part of this repository's
sources) resizes to the given height with "width scaled proportionally";
the rounding mode of the scaled width is not fixed by the spec, the model
floors. -/
def resizeToHeight (f : Frame) (H : ℕ) : Frame :=
  let w := f.width * H / f.height
  { width := w, height := H, dur := f.dur, pix := .resized f.pix w H }

/-- The canvas `horizontalJoin` builds: its size, the background color the
canvas is pre-filled with, and the composited images with their x-offsets,
in compositing order. -/
structure JoinResult where
  width : ℤ
  height : ℕ
  bg : ℚ × ℚ × ℚ × ℚ
  placements : List (ℤ × Frame)
  deriving DecidableEq, Repr

/-- The `forEach` loop of `horizontalJoin`: composite each resized image at
the running x-offset, advancing by its width plus the spacing. -/
def placeAt (x s : ℤ) : List Frame → List (ℤ × Frame)
  | [] => []
  | f :: fs => (x, f) :: placeAt (x + (f.width : ℤ) + s) s fs

/-- Embedded `horizontalJoin`: each input image is given as its frame list
(`MemoryImage` dimensions are those of the primary frame). -/
def horizontalJoin (images : List (List Frame)) (spacing : Option ℤ)
    (bgColor : Option String) (force : Bool) : Except OpErr JoinResult :=
  if images.length < 2 then .error (.imageNotEnough 2)
  else if force = false ∧ images.any (fun v => v.length > 1) then
    .error .imageAnimatedWarn
  else
    let s := spacing.getD 10
    let bgE : Except OpErr (ℚ × ℚ × ℚ × ℚ) :=
      match bgColor with
      | some c => parseColor c
      | none => .ok (0, 0, 0, 0)
    match bgE with
    | .error e => .error e
    | .ok bg =>
      let prim := images.map (fun v => v.headD ⟨0, 0, 0, .buf 0⟩)
      let H := (prim.map (·.height)).foldl max 0
      let imagesNew := prim.map (fun f => resizeToHeight f H)
      let W : ℤ := imagesNew.foldl (fun a f => a + (f.width : ℤ) + s) 0 - s
      .ok { width := W, height := H, bg := bg,
            placements := placeAt 0 s imagesNew }

/-- The claim's description of the x-offsets: images are placed
left-to-right at successive offsets, each advanced by the previous resized
width plus the spacing.  Stated from the spec's words, to be compared with
the offsets `horizontalJoin` computes. -/
def specOffsets (s : ℤ) : List ℤ → List ℤ
  | [] => []
  | w :: ws => 0 :: (specOffsets s ws).map (fun x => x + w + s)

end ImageTools

namespace ImageTools

/-! ## Shared list lemmas -/

theorem init_le_foldl_max (l : List ℕ) (a : ℕ) : a ≤ l.foldl max a := by
  induction l generalizing a with
  | nil => exact le_refl a
  | cons b bs ih =>
    exact le_trans (le_max_left a b) (ih (max a b))

theorem le_foldl_max (l : List ℕ) (a : ℕ) (x : ℕ) (hx : x ∈ l) :
    x ≤ l.foldl max a := by
  induction l generalizing a with
  | nil => cases hx
  | cons b bs ih =>
    simp only [List.foldl_cons]
    rcases List.mem_cons.mp hx with h | h
    · subst h
      exact le_trans (le_max_right a x) (init_le_foldl_max bs (max a x))
    · exact ih (max a b) h

theorem sum_map_const {α : Type} (l : List α) (c : ℚ) :
    (l.map (fun _ => c)).foldl (· + ·) 0 = l.length * c := by
  have h : ∀ (init : ℚ), (l.map (fun _ => c)).foldl (· + ·) init
      = init + l.length * c := by
    induction l with
    | nil => intro init; simp
    | cons a as ih =>
      intro init
      simp only [List.map_cons, List.foldl_cons, List.length_cons, ih]
      push_cast
      ring
  simpa using h 0

/-! ## Claim C2 — `gifReverse`

The source takes the original *last* frame itself as the new primary frame
(`const newImage = frames[frames.length - 1]`) and appends a detached copy
of the original *first* frame (`MemoryImage.from(frames[0], true)`) at the
end.  The claim attributes the clone to the new first frame and the in-place
reuse to the new last frame — the roles are swapped.  The frame *order*
(pixel content and durations) is fully reversed exactly as claimed, and
reversal is an involution on content. -/

theorem gifReverse_shape (fs : List Frame) (h : 2 ≤ fs.length) :
    ∃ out, gifReverse fs = .ok out ∧
      out.map Frame.core = (fs.map Frame.core).reverse ∧
      out.length = fs.length ∧
      out.head? = fs.getLast? ∧
      out.getLast? = fs.head?.map (fun f => { f with pix := .clone f.pix }) := by
  match fs with
  | [] => simp at h
  | [_] => simp at h
  | f0 :: r1 :: rs =>
    have hne : (r1 :: rs) ≠ [] := List.cons_ne_nil r1 rs
    refine ⟨(r1 :: rs).getLast hne ::
      ((r1 :: rs).dropLast.reverse ++ [{ f0 with pix := .clone f0.pix }]),
      ?_, ?_, ?_, ?_, ?_⟩
    · rfl
    · have hsplit : (r1 :: rs).dropLast ++ [(r1 :: rs).getLast hne] = r1 :: rs :=
        List.dropLast_append_getLast hne
      have hcore : Frame.core { f0 with pix := .clone f0.pix } = Frame.core f0 := by
        simp [Frame.core, Pix.core]
      calc ((r1 :: rs).getLast hne ::
            ((r1 :: rs).dropLast.reverse ++ [{ f0 with pix := .clone f0.pix }])).map
              Frame.core
          = Frame.core ((r1 :: rs).getLast hne) ::
              (((r1 :: rs).dropLast.map Frame.core).reverse ++ [Frame.core f0]) := by
            simp [hcore]
        _ = (((r1 :: rs).dropLast ++ [(r1 :: rs).getLast hne]).map Frame.core).reverse
              ++ [Frame.core f0] := by
            simp
        _ = ((f0 :: r1 :: rs).map Frame.core).reverse := by
            rw [hsplit]; simp
    · simp [List.length_dropLast]
    · rw [List.getLast?_cons_cons, List.getLast?_eq_getLast_of_ne_nil hne]
      rfl
    · show (((r1 :: rs).getLast hne :: (r1 :: rs).dropLast.reverse) ++
        [{ f0 with pix := .clone f0.pix }]).getLast?
        = some { f0 with pix := .clone f0.pix }
      exact List.getLast?_concat _

/-- C2 counterexample: on a two-frame image with distinct buffers, the new
first frame's pixel buffer is the original last frame's buffer itself
(`Pix.buf 1`, not a detached clone `Pix.clone (Pix.buf 1)` as the claim
states), and the new last frame is a fresh clone `Pix.clone (Pix.buf 0)`,
not the original first frame's buffer `Pix.buf 0` reused. -/
theorem gifReverse_clone_roles_swapped :
    gifReverse [⟨1, 1, 10, .buf 0⟩, ⟨1, 1, 20, .buf 1⟩] =
      .ok [⟨1, 1, 20, .buf 1⟩, ⟨1, 1, 10, .clone (.buf 0)⟩] ∧
    Pix.buf 1 ≠ Pix.clone (Pix.buf 1) ∧
    Pix.clone (Pix.buf 0) ≠ Pix.buf 0 := by
  refine ⟨by decide, by decide, by decide⟩

/-- C2 (amended): for every animated image, `gifReverse` produces the frames
in exactly reversed order (pixel content and durations), with the original
*last* frame reused in place as the new first frame and the new *last* frame
a detached clone of the original first frame's pixel data; applying
`gifReverse` twice reproduces the original frame order and per-frame
durations. -/
theorem gifReverse_reverses_and_involutes (fs : List Frame) (h : 2 ≤ fs.length) :
    ∃ out, gifReverse fs = .ok out ∧
      out.map Frame.core = (fs.map Frame.core).reverse ∧
      out.head? = fs.getLast? ∧
      out.getLast? = fs.head?.map (fun f => { f with pix := .clone f.pix }) ∧
      ∃ out2, gifReverse out = .ok out2 ∧
        out2.map Frame.core = fs.map Frame.core := by
  obtain ⟨out, hok, hrev, hlen, hhead, hlast⟩ := gifReverse_shape fs h
  obtain ⟨out2, hok2, hrev2, _, _, _⟩ := gifReverse_shape out (by omega)
  refine ⟨out, hok, hrev, hhead, hlast, out2, hok2, ?_⟩
  rw [hrev2, hrev, List.reverse_reverse]

/-- C2 witness: a concrete three-frame animation. -/
theorem gifReverse_reverses_and_involutes_witness :
    2 ≤ ([⟨1, 1, 10, .buf 0⟩, ⟨1, 1, 20, .buf 1⟩, ⟨1, 1, 30, .buf 2⟩] :
        List Frame).length ∧
    ∃ out, gifReverse [⟨1, 1, 10, .buf 0⟩, ⟨1, 1, 20, .buf 1⟩, ⟨1, 1, 30, .buf 2⟩]
        = .ok out ∧
      out.map Frame.core =
        (([⟨1, 1, 10, .buf 0⟩, ⟨1, 1, 20, .buf 1⟩, ⟨1, 1, 30, .buf 2⟩] :
          List Frame).map Frame.core).reverse ∧
      out.head? = ([⟨1, 1, 10, .buf 0⟩, ⟨1, 1, 20, .buf 1⟩, ⟨1, 1, 30, .buf 2⟩] :
        List Frame).getLast? ∧
      out.getLast? = (([⟨1, 1, 10, .buf 0⟩, ⟨1, 1, 20, .buf 1⟩, ⟨1, 1, 30, .buf 2⟩] :
        List Frame).head?.map (fun f => { f with pix := .clone f.pix })) ∧
      ∃ out2, gifReverse out = .ok out2 ∧
        out2.map Frame.core =
          ([⟨1, 1, 10, .buf 0⟩, ⟨1, 1, 20, .buf 1⟩, ⟨1, 1, 30, .buf 2⟩] :
            List Frame).map Frame.core :=
  ⟨by decide, gifReverse_reverses_and_involutes _ (by decide)⟩

/-! ## Claim C7 — `gifChangeFps` with an fps-form spec below 20 ms -/

theorem any_lt20_map_const {α : Type} (l : List α) (c : ℚ) (hne : l ≠ [])
    (hc : c < 20) : (l.map (fun _ => c)).any (fun v => v < 20) = true := by
  match l with
  | [] => exact absurd rfl hne
  | a :: as => simp [hc]

theorem zipWith_set_dur (fs : List Frame) (c : ℚ) :
    List.zipWith (fun f t => { f with dur := t }) fs (fs.map (fun _ => c)) =
      fs.map (fun f => { f with dur := c }) := by
  induction fs with
  | nil => rfl
  | cons a as ih => simp only [List.map_cons, List.zipWith_cons_cons, ih]

/-- C7: for every animated image and rate-spec string that reaches the
fps pattern with value `q` (the multiplier and percentage patterns do not
match — they cannot, their suffixes differ), when the uniform per-frame
duration `round(1000/q)` is below 20 ms: without `force` the operation
fails with `fps-exceed-range-warn` carrying the computed average duration
(equal to that uniform duration) and produces no retimed frames, and with
`force` it succeeds giving every frame exactly duration `round(1000/q)`. -/
theorem gifChangeFps_fps_low_warn (fs : List Frame) (s : String) (q : ℚ)
    (hanim : 2 ≤ fs.length)
    (hm : matchMult s = none) (hp : matchPct s = none)
    (hf : matchFps s = some q)
    (hlow : ((jsRound (1000 / q) : ℤ) : ℚ) < 20) :
    gifChangeFps fs s false =
      .error (.fpsExceedRangeWarn ((jsRound (1000 / q) : ℤ) : ℚ)) ∧
    gifChangeFps fs s true =
      .ok (fs.map (fun f => { f with dur := ((jsRound (1000 / q) : ℤ) : ℚ) })) := by
  have hnle : ¬ fs.length ≤ 1 := by omega
  have hne : fs.map (·.dur) ≠ [] := by
    intro hcon
    have hl := congrArg List.length hcon
    simp only [List.length_map, List.length_nil] at hl
    omega
  have hlen0 : ((fs.map (·.dur)).length : ℚ) ≠ 0 := by
    simp only [List.length_map, ne_eq, Nat.cast_eq_zero]
    omega
  constructor
  · simp only [gifChangeFps, if_neg hnle, hm, hp, hf]
    rw [if_pos ⟨trivial, any_lt20_map_const _ _ hne hlow⟩]
    have havg : ((fs.map (·.dur)).map
        (fun _ => ((jsRound (1000 / q) : ℤ) : ℚ))).foldl (· + ·) 0 /
          (((fs.map (·.dur)).map
            (fun _ => ((jsRound (1000 / q) : ℤ) : ℚ))).length : ℚ) =
        ((jsRound (1000 / q) : ℤ) : ℚ) := by
      rw [sum_map_const, List.length_map]
      field_simp
    rw [havg]
  · simp only [gifChangeFps, if_neg hnle, hm, hp, hf]
    rw [if_neg (by simp)]
    congr 1
    have hmm : (fs.map (·.dur)).map (fun _ => ((jsRound (1000 / q) : ℤ) : ℚ)) =
        fs.map (fun _ => ((jsRound (1000 / q) : ℤ) : ℚ)) := by
      rw [List.map_map]
      rfl
    rw [hmm, zipWith_set_dur]

/-- C7 witness: `"60fps"` on a two-frame animation — `round(1000/60) = 17 <
20`, so without `force` the warning carries 17 and with `force` every frame
gets 17 ms. -/
theorem gifChangeFps_fps_low_warn_witness :
    2 ≤ ([⟨1, 1, 100, .buf 0⟩, ⟨1, 1, 50, .buf 1⟩] : List Frame).length ∧
    matchMult "60fps" = none ∧ matchPct "60fps" = none ∧
    matchFps "60fps" = some 60 ∧
    ((jsRound (1000 / 60) : ℤ) : ℚ) < 20 ∧
    gifChangeFps [⟨1, 1, 100, .buf 0⟩, ⟨1, 1, 50, .buf 1⟩] "60fps" false =
      .error (.fpsExceedRangeWarn ((jsRound (1000 / 60) : ℤ) : ℚ)) ∧
    gifChangeFps [⟨1, 1, 100, .buf 0⟩, ⟨1, 1, 50, .buf 1⟩] "60fps" true =
      .ok (([⟨1, 1, 100, .buf 0⟩, ⟨1, 1, 50, .buf 1⟩] : List Frame).map
        (fun f => { f with dur := ((jsRound (1000 / 60) : ℤ) : ℚ) })) := by
  have h60 : "60fps".toList = ['6', '0', 'f', 'p', 's'] := rfl
  have hm : matchMult "60fps" = none := by
    simp [matchMult, stripEndLiteral, h60]
  have hp : matchPct "60fps" = none := by
    simp [matchPct, stripEndLiteral, h60]
  have hf : matchFps "60fps" = some 60 := by
    simp [matchFps, stripEndLiteral, numFull, natOfDigits, h60]
  have hlow : ((jsRound (1000 / 60) : ℤ) : ℚ) < 20 := by
    norm_num [jsRound]
  obtain ⟨h1, h2⟩ :=
    gifChangeFps_fps_low_warn [⟨1, 1, 100, .buf 0⟩, ⟨1, 1, 50, .buf 1⟩]
      "60fps" 60 (by norm_num) hm hp hf hlow
  exact ⟨by norm_num, hm, hp, hf, hlow, h1, h2⟩

/-! ## Claim C9 — `gifJoin`'s minimum-input check

The check `ensureMinImageNum(frames)` counts the flattened frame pool, not
the number of input images, and it runs after `ensureBigger(duration, 0)`.
But the claim's universal clause — *any* call with fewer than 2 pooled
frames fails with `image-not-enough` — is false: the low-duration
`fps-exceed-range-warn` check also precedes the count check, so a call with
one pooled frame and `duration = 10` (without `force`) fails with the fps
warning instead. -/

/-- C9 counterexample: one still input image and `duration = 10` without
`force`: the call fails with `fps-exceed-range-warn 10`, not with
`image-not-enough 2` as the claim requires for every input pool smaller
than 2. -/
theorem gifJoin_low_duration_preempts_count :
    gifJoin [[⟨1, 1, 5, .buf 0⟩]] (some 10) false =
      .error (.fpsExceedRangeWarn 10) ∧
    OpErr.fpsExceedRangeWarn 10 ≠ OpErr.imageNotEnough 2 := by
  refine ⟨by decide, by decide⟩

/-- C9 (amended): `gifJoin`'s minimum-input check counts the flattened
frame pool: (i) a single animated input with ≥ 2 frames is accepted with
default options; (ii) a call whose inputs pool fewer than 2 frames and
whose duration passes the lower-bound and low-duration checks fails with
`image-not-enough 2`; (iii) the count check runs only after the duration
option's lower-bound validation — a negative duration fails with
`value-too-small` even when the pool is too small. -/
theorem gifJoin_counts_pooled_frames :
    (∀ img : List Frame, 2 ≤ img.length →
      ∃ out, gifJoin [img] none false = .ok out) ∧
    (∀ (imgs : List (List Frame)) (d : ℚ) (force : Bool), 0 ≤ d →
      (20 ≤ d ∨ force = true) → (imgs.flatMap id).length < 2 →
      gifJoin imgs (some d) force = .error (.imageNotEnough 2)) ∧
    (∀ (imgs : List (List Frame)) (d : ℚ) (force : Bool), d < 0 →
      gifJoin imgs (some d) force = .error (.valueTooSmall d 0)) := by
  refine ⟨?_, ?_, ?_⟩
  · intro img hlen
    have h2 : ¬ (([img] : List (List Frame)).flatMap id).length < 2 := by
      simp only [List.flatMap_cons, List.flatMap_nil, id_eq, List.append_nil]
      omega
    simp only [gifJoin, gifJoin.gifJoinChecked]
    rw [if_neg (by norm_num), if_neg h2]
    exact ⟨_, rfl⟩
  · intro imgs d force hd0 hdf hpool
    have hneg : ¬ d < 0 := not_lt.mpr hd0
    have hwarn : ¬ (force = false ∧ d < 20) := by
      rcases hdf with h20 | hforce
      · rintro ⟨-, hlt⟩
        exact absurd hlt (not_lt.mpr h20)
      · rintro ⟨hf, -⟩
        rw [hforce] at hf
        cases hf
    simp only [gifJoin, gifJoin.gifJoinChecked]
    rw [if_neg hneg, if_neg hwarn, if_pos hpool]
  · intro imgs d force hd
    simp only [gifJoin]
    rw [if_pos hd]

/-- C9 witness: concrete instances for the three parts — a one-image
two-frame pool is accepted, a one-frame pool with duration 30 fails with
`image-not-enough 2`, and duration −3 fails with `value-too-small` first. -/
theorem gifJoin_counts_pooled_frames_witness :
    2 ≤ ([⟨1, 1, 5, .buf 0⟩, ⟨1, 1, 6, .buf 1⟩] : List Frame).length ∧
    (∃ out, gifJoin [[⟨1, 1, 5, .buf 0⟩, ⟨1, 1, 6, .buf 1⟩]] none false = .ok out) ∧
    ((0 : ℚ) ≤ 30 ∧ ((20 : ℚ) ≤ 30 ∨ false = true) ∧
      (([[⟨1, 1, 5, .buf 0⟩]] : List (List Frame)).flatMap id).length < 2 ∧
      gifJoin [[⟨1, 1, 5, .buf 0⟩]] (some 30) false =
        .error (.imageNotEnough 2)) ∧
    ((-3 : ℚ) < 0 ∧
      gifJoin [[⟨1, 1, 5, .buf 0⟩]] (some (-3)) false =
        .error (.valueTooSmall (-3) 0)) :=
  ⟨by decide,
   gifJoin_counts_pooled_frames.1 _ (by decide),
   ⟨by norm_num, Or.inl (by norm_num), by decide,
    gifJoin_counts_pooled_frames.2.1 _ 30 false (by norm_num)
      (Or.inl (by norm_num)) (by decide)⟩,
   ⟨by norm_num,
    gifJoin_counts_pooled_frames.2.2 _ (-3) false (by norm_num)⟩⟩

/-! ## Claim C3 — `gifJoin` frame normalization

The common canvas is the maximum width and maximum height over the pooled
frames, so `scale = Math.min(width / f.width, height / f.height) ≥ 1` for
every pooled frame: frames smaller than the canvas are *upscaled* to fit the
common box (and never downscaled) — the opposite of the claim's
"proportionally downscaled if needed and never upscaled".  The centering,
transparent 4-channel canvas, and uniform requested duration are as
claimed. -/

theorem jsRound_nat_le (n : ℕ) (q : ℚ) (h : (n : ℚ) ≤ q) :
    (n : ℤ) ≤ jsRound q := by
  unfold jsRound
  have hle : ((n : ℤ) : ℚ) ≤ q + 1/2 := by push_cast; linarith
  calc (n : ℤ) = ⌊((n : ℤ) : ℚ)⌋ := (Int.floor_intCast n).symm
    _ ≤ ⌊q + 1/2⌋ := Int.floor_le_floor hle

/-- C3 counterexample: pooling a 2×2 frame with a 4×4 frame gives the
common canvas 4×4, and the 2×2 frame is resized to 4×4 — recorded in its
pixel term as `resized … 4 4` — i.e. *upscaled*, while the claim says a
frame whose dimensions differ from the canvas is "proportionally downscaled
if needed and never upscaled" (which would require a resized width ≤ 2). -/
theorem gifJoin_upscales_small_frames :
    gifJoin [[⟨2, 2, 5, .buf 0⟩], [⟨4, 4, 7, .buf 1⟩]] none false =
      .ok [⟨4, 4, 100,
            .composited (.resized (.convert4 (.clone (.buf 0))) 4 4) 4 4⟩,
           ⟨4, 4, 100, .convert4 (.clone (.buf 1))⟩] ∧
    ¬ ((4 : ℕ) ≤ 2) := by
  constructor
  · simp [gifJoin, gifJoin.gifJoinChecked, gifJoinSizeFrame, jsRound]
    norm_num
    rfl
  · decide

/-- C3 (amended): for valid options and a pool of ≥ 2 positive-dimension
frames, `gifJoin` succeeds; every output frame has the common canvas size
`W`×`H` (the maxima over the pool) and the uniform requested duration, and
every pooled frame whose dimensions differ from the canvas is converted to
4 channels, proportionally scaled by `min(W/w, H/h) ≥ 1` — so never
downscaled, upscaled when strictly smaller — and alpha-composited centered
onto a transparent 4-channel canvas of the common size. -/
theorem gifJoin_scales_to_fit (images : List (List Frame)) (d : ℚ)
    (force : Bool) (W H : ℕ)
    (hd0 : 0 ≤ d) (hdf : 20 ≤ d ∨ force = true)
    (hpool : 2 ≤ (images.flatMap id).length)
    (hdims : ∀ f ∈ images.flatMap id, 0 < f.width ∧ 0 < f.height)
    (hW : W = ((images.flatMap id).map (·.width)).foldl max 0)
    (hH : H = ((images.flatMap id).map (·.height)).foldl max 0) :
    gifJoin images (some d) force =
      .ok ((images.flatMap id).map (gifJoinSizeFrame W H d)) ∧
    ∀ f ∈ images.flatMap id,
      (gifJoinSizeFrame W H d f).dur = d ∧
      (gifJoinSizeFrame W H d f).width = W ∧
      (gifJoinSizeFrame W H d f).height = H ∧
      ((W = f.width ∧ H = f.height) →
        (gifJoinSizeFrame W H d f).pix = .convert4 (.clone f.pix)) ∧
      (¬ (W = f.width ∧ H = f.height) →
        1 ≤ min ((W : ℚ) / (f.width : ℚ)) ((H : ℚ) / (f.height : ℚ)) ∧
        ∃ sw sh,
          sw = (jsRound ((f.width : ℚ) *
            min ((W : ℚ) / (f.width : ℚ)) ((H : ℚ) / (f.height : ℚ)))).toNat ∧
          sh = (jsRound ((f.height : ℚ) *
            min ((W : ℚ) / (f.width : ℚ)) ((H : ℚ) / (f.height : ℚ)))).toNat ∧
          f.width ≤ sw ∧ f.height ≤ sh ∧
          (gifJoinSizeFrame W H d f).pix =
            .composited (.resized (.convert4 (.clone f.pix)) sw sh) W H) := by
  have hwarn : ¬ (force = false ∧ d < 20) := by
    rcases hdf with h20 | hforce
    · rintro ⟨-, hlt⟩
      exact absurd hlt (not_lt.mpr h20)
    · rintro ⟨hf, -⟩
      rw [hforce] at hf
      cases hf
  constructor
  · simp only [gifJoin, gifJoin.gifJoinChecked]
    rw [if_neg (not_lt.mpr hd0), if_neg hwarn, if_neg (not_lt.mpr hpool),
      hW, hH]
  · intro f hf
    obtain ⟨hfw, hfh⟩ := hdims f hf
    have hfwq : (0 : ℚ) < (f.width : ℚ) := by exact_mod_cast hfw
    have hfhq : (0 : ℚ) < (f.height : ℚ) := by exact_mod_cast hfh
    have hWge : f.width ≤ W := by
      rw [hW]
      exact le_foldl_max _ 0 _ (List.mem_map_of_mem (·.width) hf)
    have hHge : f.height ≤ H := by
      rw [hH]
      exact le_foldl_max _ 0 _ (List.mem_map_of_mem (·.height) hf)
    have hscale : 1 ≤ min ((W : ℚ) / (f.width : ℚ)) ((H : ℚ) / (f.height : ℚ)) :=
      le_min ((one_le_div hfwq).mpr (by exact_mod_cast hWge))
        ((one_le_div hfhq).mpr (by exact_mod_cast hHge))
    by_cases hc : W = f.width ∧ H = f.height
    · refine ⟨?_, ?_, ?_, ?_, ?_⟩
      · simp only [gifJoinSizeFrame, if_pos hc]
      · simp only [gifJoinSizeFrame, if_pos hc]
        exact hc.1.symm
      · simp only [gifJoinSizeFrame, if_pos hc]
        exact hc.2.symm
      · intro
        simp only [gifJoinSizeFrame, if_pos hc]
      · intro hn
        exact absurd hc hn
    · have hswle : (f.width : ℤ) ≤ jsRound ((f.width : ℚ) *
          min ((W : ℚ) / (f.width : ℚ)) ((H : ℚ) / (f.height : ℚ))) :=
        jsRound_nat_le _ _ (le_mul_of_one_le_right (le_of_lt hfwq) hscale)
      have hshle : (f.height : ℤ) ≤ jsRound ((f.height : ℚ) *
          min ((W : ℚ) / (f.width : ℚ)) ((H : ℚ) / (f.height : ℚ))) :=
        jsRound_nat_le _ _ (le_mul_of_one_le_right (le_of_lt hfhq) hscale)
      have hswn : f.width ≤ (jsRound ((f.width : ℚ) *
          min ((W : ℚ) / (f.width : ℚ)) ((H : ℚ) / (f.height : ℚ)))).toNat :=
        (Int.le_toNat (le_trans (by exact_mod_cast Nat.zero_le _) hswle)).mpr hswle
      have hshn : f.height ≤ (jsRound ((f.height : ℚ) *
          min ((W : ℚ) / (f.width : ℚ)) ((H : ℚ) / (f.height : ℚ)))).toNat :=
        (Int.le_toNat (le_trans (by exact_mod_cast Nat.zero_le _) hshle)).mpr hshle
      refine ⟨?_, ?_, ?_, ?_, ?_⟩
      · simp only [gifJoinSizeFrame, if_neg hc]
      · simp only [gifJoinSizeFrame, if_neg hc]
      · simp only [gifJoinSizeFrame, if_neg hc]
      · intro hcon
        exact absurd hcon hc
      · intro
        refine ⟨hscale, _, _, rfl, rfl, hswn, hshn, ?_⟩
        simp only [gifJoinSizeFrame, if_neg hc]

/-- C3 witness: the 2×2 + 4×4 pool with the default-equivalent duration
100. -/
theorem gifJoin_scales_to_fit_witness :
    (0 : ℚ) ≤ 100 ∧ ((20 : ℚ) ≤ 100 ∨ false = true) ∧
    2 ≤ (([[⟨2, 2, 5, .buf 0⟩], [⟨4, 4, 7, .buf 1⟩]] :
      List (List Frame)).flatMap id).length ∧
    (∀ f ∈ ([[⟨2, 2, 5, .buf 0⟩], [⟨4, 4, 7, .buf 1⟩]] :
      List (List Frame)).flatMap id, 0 < f.width ∧ 0 < f.height) ∧
    (4 = ((([[⟨2, 2, 5, .buf 0⟩], [⟨4, 4, 7, .buf 1⟩]] :
      List (List Frame)).flatMap id).map (·.width)).foldl max 0) ∧
    gifJoin [[⟨2, 2, 5, .buf 0⟩], [⟨4, 4, 7, .buf 1⟩]] (some 100) false =
      .ok ((([[⟨2, 2, 5, .buf 0⟩], [⟨4, 4, 7, .buf 1⟩]] :
        List (List Frame)).flatMap id).map (gifJoinSizeFrame 4 4 100)) :=
  ⟨by norm_num, Or.inl (by norm_num), by decide, by decide, by decide,
   (gifJoin_scales_to_fit [[⟨2, 2, 5, .buf 0⟩], [⟨4, 4, 7, .buf 1⟩]] 100 false
     4 4 (by norm_num) (Or.inl (by norm_num)) (by decide) (by decide)
     (by decide) (by decide)).1⟩

/-! ## Claim C8 — `horizontalJoin` with default options -/

theorem placeAt_map_snd (x s : ℤ) (l : List Frame) :
    (placeAt x s l).map Prod.snd = l := by
  induction l generalizing x with
  | nil => rfl
  | cons f fs ih => simp only [placeAt, List.map_cons, ih]

theorem placeAt_map_fst (x s : ℤ) (l : List Frame) :
    (placeAt x s l).map Prod.fst =
      (specOffsets s (l.map (fun f => (f.width : ℤ)))).map (fun o => x + o) := by
  induction l generalizing x with
  | nil => rfl
  | cons f fs ih =>
    simp only [placeAt, specOffsets, List.map_cons, List.map_map, ih]
    rw [List.cons.injEq]
    refine ⟨by ring, ?_⟩
    apply List.map_congr_left
    intro o _
    simp only [Function.comp_apply]
    ring

theorem foldl_add_width (l : List Frame) (s : ℤ) (init : ℤ) :
    l.foldl (fun a f => a + (f.width : ℤ) + s) init =
      init + (l.map (fun f => (f.width : ℤ))).sum + s * l.length := by
  induction l generalizing init with
  | nil => simp
  | cons f fs ih =>
    simp only [List.foldl_cons, List.map_cons, List.sum_cons, List.length_cons,
      ih]
    push_cast
    ring

/-- C8: for ≥ 2 still inputs with default options, `horizontalJoin` resizes
each input to the common height `H` (the maximum input height, width scaled
proportionally), pre-fills a canvas of height `H` with the fully transparent
default background, composites the resized images left-to-right at
successive x-offsets (each advanced by the previous width plus the default
spacing 10), and the canvas width is the sum of the resized widths plus
`10 × (n − 1)`. -/
theorem horizontalJoin_geometry (images : List (List Frame)) (H : ℕ)
    (hn : 2 ≤ images.length)
    (hstill : ∀ v ∈ images, v.length = 1)
    (hH : H = ((images.map (fun v => v.headD ⟨0, 0, 0, .buf 0⟩)).map
      (fun f => f.height)).foldl max 0) :
    ∃ r, horizontalJoin images none none false = .ok r ∧
      r.height = H ∧
      r.bg = (0, 0, 0, 0) ∧
      r.placements.map Prod.snd =
        (images.map (fun v => v.headD ⟨0, 0, 0, .buf 0⟩)).map
          (fun f => resizeToHeight f H) ∧
      r.placements.map Prod.fst =
        specOffsets 10 (((images.map (fun v => v.headD ⟨0, 0, 0, .buf 0⟩)).map
          (fun f => resizeToHeight f H)).map (fun f => (f.width : ℤ))) ∧
      r.width = (((images.map (fun v => v.headD ⟨0, 0, 0, .buf 0⟩)).map
        (fun f => resizeToHeight f H)).map (fun f => (f.width : ℤ))).sum +
        10 * ((images.length : ℤ) - 1) := by
  have hany : images.any (fun v => decide (v.length > 1)) = false := by
    rw [List.any_eq_false]
    intro v hv
    simp [hstill v hv]
  have hcond : ¬ (True ∧
      images.any (fun v => decide (v.length > 1)) = true) := by
    rintro ⟨-, hcontra⟩
    rw [hany] at hcontra
    cases hcontra
  simp only [horizontalJoin]
  rw [if_neg (not_lt.mpr hn), if_neg hcond]
  refine ⟨_, rfl, hH.symm, rfl, ?_, ?_, ?_⟩
  · rw [placeAt_map_snd, hH]
  · rw [placeAt_map_fst, hH]
    simp
  · rw [hH, foldl_add_width]
    simp only [List.length_map, Option.getD_none]
    ring

/-- C8 witness: the end-to-end example — 100×50 and 100×80 stills joined with
defaults give height 80 and resized widths 160 and 100 (so width 270 and
offsets 0 and 170). -/
theorem horizontalJoin_geometry_witness :
    2 ≤ ([[⟨100, 50, 0, .buf 0⟩], [⟨100, 80, 0, .buf 1⟩]] :
      List (List Frame)).length ∧
    (∀ v ∈ ([[⟨100, 50, 0, .buf 0⟩], [⟨100, 80, 0, .buf 1⟩]] :
      List (List Frame)), v.length = 1) ∧
    (80 = ((([[⟨100, 50, 0, .buf 0⟩], [⟨100, 80, 0, .buf 1⟩]] :
      List (List Frame)).map (fun v => v.headD ⟨0, 0, 0, .buf 0⟩)).map
        (fun f => f.height)).foldl max 0) ∧
    ∃ r, horizontalJoin [[⟨100, 50, 0, .buf 0⟩], [⟨100, 80, 0, .buf 1⟩]]
        none none false = .ok r ∧
      r.height = 80 ∧
      r.bg = (0, 0, 0, 0) ∧
      r.placements.map Prod.snd =
        (([[⟨100, 50, 0, .buf 0⟩], [⟨100, 80, 0, .buf 1⟩]] :
          List (List Frame)).map (fun v => v.headD ⟨0, 0, 0, .buf 0⟩)).map
            (fun f => resizeToHeight f 80) ∧
      r.placements.map Prod.fst =
        specOffsets 10 (((([[⟨100, 50, 0, .buf 0⟩], [⟨100, 80, 0, .buf 1⟩]] :
          List (List Frame)).map (fun v => v.headD ⟨0, 0, 0, .buf 0⟩)).map
            (fun f => resizeToHeight f 80)).map (fun f => (f.width : ℤ))) ∧
      r.width = (((([[⟨100, 50, 0, .buf 0⟩], [⟨100, 80, 0, .buf 1⟩]] :
        List (List Frame)).map (fun v => v.headD ⟨0, 0, 0, .buf 0⟩)).map
          (fun f => resizeToHeight f 80)).map (fun f => (f.width : ℤ))).sum +
        10 * ((([[⟨100, 50, 0, .buf 0⟩], [⟨100, 80, 0, .buf 1⟩]] :
          List (List Frame)).length : ℤ) - 1) :=
  ⟨by decide, by decide, by decide,
   horizontalJoin_geometry [[⟨100, 50, 0, .buf 0⟩], [⟨100, 80, 0, .buf 1⟩]]
     80 (by decide) (by decide) (by decide)⟩

/-! ## Claim C4 — four-grid / nine-grid cell geometry

`cropToGrids` first takes the centered square of side `S = min(width,
height)` (spec-modelled `copyResizeCropSquare`), then crops each box, the
crop clipped to the square (spec-modelled `copyCrop`).  The boxes use cell
side `a = ceil(S/N)`, with the far edges `a*N` (four-grid) or the square
side itself (nine-grid); clipping gives the column boundaries
`0, a, S` (four) and `0, a, min(2a, S), S` (nine), which tile `[0,S)` with
no gap or overlap, in row-major order. -/

theorem rects4_disjoint (S a p q : ℕ) :
    ∀ c1 ∈ ([⟨0, 0, a, a⟩, ⟨a, 0, S, a⟩, ⟨0, a, a, S⟩, ⟨a, a, S, S⟩] :
      List Rect),
    ∀ c2 ∈ ([⟨0, 0, a, a⟩, ⟨a, 0, S, a⟩, ⟨0, a, a, S⟩, ⟨a, a, S, S⟩] :
      List Rect),
    ptInRect c1 p q → ptInRect c2 p q → c1 = c2 := by
  intro c1 h1 c2 h2 hp1 hp2
  simp only [List.mem_cons, List.not_mem_nil, or_false] at h1 h2
  rcases h1 with rfl | rfl | rfl | rfl <;>
    rcases h2 with rfl | rfl | rfl | rfl <;>
    first
      | rfl
      | (simp only [ptInRect] at hp1 hp2
         omega)

theorem rects9_disjoint (S a b p q : ℕ) (hab : a ≤ b) :
    ∀ c1 ∈ ([⟨0, 0, a, a⟩, ⟨a, 0, b, a⟩, ⟨b, 0, S, a⟩,
             ⟨0, a, a, b⟩, ⟨a, a, b, b⟩, ⟨b, a, S, b⟩,
             ⟨0, b, a, S⟩, ⟨a, b, b, S⟩, ⟨b, b, S, S⟩] : List Rect),
    ∀ c2 ∈ ([⟨0, 0, a, a⟩, ⟨a, 0, b, a⟩, ⟨b, 0, S, a⟩,
             ⟨0, a, a, b⟩, ⟨a, a, b, b⟩, ⟨b, a, S, b⟩,
             ⟨0, b, a, S⟩, ⟨a, b, b, S⟩, ⟨b, b, S, S⟩] : List Rect),
    ptInRect c1 p q → ptInRect c2 p q → c1 = c2 := by
  intro c1 h1 c2 h2 hp1 hp2
  simp only [List.mem_cons, List.not_mem_nil, or_false] at h1 h2
  rcases h1 with rfl | rfl | rfl | rfl | rfl | rfl | rfl | rfl | rfl <;>
    rcases h2 with rfl | rfl | rfl | rfl | rfl | rfl | rfl | rfl | rfl <;>
    first
      | rfl
      | (simp only [ptInRect] at hp1 hp2
         omega)

/-- C4: `fourGrid` and `nineGrid` crop to the centered square of side
`S = min(width, height)`, then emit `N × N` cells of side `ceil(S/N)` in
row-major order with the final row and column clipped to the square's edge
(never overshooting), and for every point of the square exactly one emitted
cell contains it — the cells tile the square with no gap or overlap. -/
theorem fourNineGrid_cells_partition (w h S a4 a9 b9 : ℕ)
    (hw : 1 ≤ w) (hh : 1 ≤ h)
    (hS : S = min w h)
    (ha4 : a4 = (S + 1) / 2) (ha9 : a9 = (S + 2) / 3)
    (hb9 : b9 = min (a9 * 2) S) :
    fourGridCells w h = (((w - S) / 2, (h - S) / 2, S),
      [⟨0, 0, a4, a4⟩, ⟨a4, 0, S, a4⟩, ⟨0, a4, a4, S⟩, ⟨a4, a4, S, S⟩]) ∧
    nineGridCells w h = (((w - S) / 2, (h - S) / 2, S),
      [⟨0, 0, a9, a9⟩, ⟨a9, 0, b9, a9⟩, ⟨b9, 0, S, a9⟩,
       ⟨0, a9, a9, b9⟩, ⟨a9, a9, b9, b9⟩, ⟨b9, a9, S, b9⟩,
       ⟨0, b9, a9, S⟩, ⟨a9, b9, b9, S⟩, ⟨b9, b9, S, S⟩]) ∧
    (∀ p q, p < S → q < S → ∃! c,
      c ∈ ([⟨0, 0, a4, a4⟩, ⟨a4, 0, S, a4⟩, ⟨0, a4, a4, S⟩, ⟨a4, a4, S, S⟩] :
        List Rect) ∧ ptInRect c p q) ∧
    (∀ p q, p < S → q < S → ∃! c,
      c ∈ ([⟨0, 0, a9, a9⟩, ⟨a9, 0, b9, a9⟩, ⟨b9, 0, S, a9⟩,
            ⟨0, a9, a9, b9⟩, ⟨a9, a9, b9, b9⟩, ⟨b9, a9, S, b9⟩,
            ⟨0, b9, a9, S⟩, ⟨a9, b9, b9, S⟩, ⟨b9, b9, S, S⟩] : List Rect) ∧
        ptInRect c p q) := by
  have hS1 : 1 ≤ S := by omega
  have ha4S : a4 ≤ S := by omega
  have h2a4 : S ≤ a4 * 2 := by omega
  have ha9S : a9 ≤ S := by omega
  have hab : a9 ≤ b9 := by omega
  refine ⟨?_, ?_, ?_, ?_⟩
  · simp only [fourGridCells, cropToGrids, centeredSquare, fourGridBoxes,
      clipRect, List.map_cons, List.map_nil]
    rw [← hS, ← ha4, Nat.min_eq_left ha4S, Nat.min_eq_right h2a4,
      Nat.zero_min]
  · simp only [nineGridCells, cropToGrids, centeredSquare, nineGridBoxes,
      clipRect, List.map_cons, List.map_nil]
    rw [← hS, ← ha9, Nat.min_eq_left ha9S, Nat.zero_min, Nat.min_self, ← hb9]
  · intro p q hp hq
    have hcase : (p < a4 ∧ q < a4) ∨ (a4 ≤ p ∧ q < a4) ∨
        (p < a4 ∧ a4 ≤ q) ∨ (a4 ≤ p ∧ a4 ≤ q) := by omega
    rcases hcase with ⟨h1, h2⟩ | ⟨h1, h2⟩ | ⟨h1, h2⟩ | ⟨h1, h2⟩
    · exact ⟨⟨0, 0, a4, a4⟩,
        ⟨by simp, (by simp only [ptInRect]; omega)⟩,
        fun y hy => rects4_disjoint S a4 p q y hy.1 _ (by simp) hy.2
          (by simp only [ptInRect]; omega)⟩
    · exact ⟨⟨a4, 0, S, a4⟩,
        ⟨by simp, (by simp only [ptInRect]; omega)⟩,
        fun y hy => rects4_disjoint S a4 p q y hy.1 _ (by simp) hy.2
          (by simp only [ptInRect]; omega)⟩
    · exact ⟨⟨0, a4, a4, S⟩,
        ⟨by simp, (by simp only [ptInRect]; omega)⟩,
        fun y hy => rects4_disjoint S a4 p q y hy.1 _ (by simp) hy.2
          (by simp only [ptInRect]; omega)⟩
    · exact ⟨⟨a4, a4, S, S⟩,
        ⟨by simp, (by simp only [ptInRect]; omega)⟩,
        fun y hy => rects4_disjoint S a4 p q y hy.1 _ (by simp) hy.2
          (by simp only [ptInRect]; omega)⟩
  · intro p q hp hq
    have hx : p < a9 ∨ (a9 ≤ p ∧ p < b9) ∨ b9 ≤ p := by omega
    have hy2 : q < a9 ∨ (a9 ≤ q ∧ q < b9) ∨ b9 ≤ q := by omega
    rcases hx with hx1 | ⟨hx1, hx2⟩ | hx1 <;>
      rcases hy2 with hy1 | ⟨hy1, hy3⟩ | hy1
    · exact ⟨⟨0, 0, a9, a9⟩,
        ⟨by simp, (by simp only [ptInRect]; omega)⟩,
        fun y hy => rects9_disjoint S a9 b9 p q hab y hy.1 _ (by simp) hy.2
          (by simp only [ptInRect]; omega)⟩
    · exact ⟨⟨0, a9, a9, b9⟩,
        ⟨by simp, (by simp only [ptInRect]; omega)⟩,
        fun y hy => rects9_disjoint S a9 b9 p q hab y hy.1 _ (by simp) hy.2
          (by simp only [ptInRect]; omega)⟩
    · exact ⟨⟨0, b9, a9, S⟩,
        ⟨by simp, (by simp only [ptInRect]; omega)⟩,
        fun y hy => rects9_disjoint S a9 b9 p q hab y hy.1 _ (by simp) hy.2
          (by simp only [ptInRect]; omega)⟩
    · exact ⟨⟨a9, 0, b9, a9⟩,
        ⟨by simp, (by simp only [ptInRect]; omega)⟩,
        fun y hy => rects9_disjoint S a9 b9 p q hab y hy.1 _ (by simp) hy.2
          (by simp only [ptInRect]; omega)⟩
    · exact ⟨⟨a9, a9, b9, b9⟩,
        ⟨by simp, (by simp only [ptInRect]; omega)⟩,
        fun y hy => rects9_disjoint S a9 b9 p q hab y hy.1 _ (by simp) hy.2
          (by simp only [ptInRect]; omega)⟩
    · exact ⟨⟨a9, b9, b9, S⟩,
        ⟨by simp, (by simp only [ptInRect]; omega)⟩,
        fun y hy => rects9_disjoint S a9 b9 p q hab y hy.1 _ (by simp) hy.2
          (by simp only [ptInRect]; omega)⟩
    · exact ⟨⟨b9, 0, S, a9⟩,
        ⟨by simp, (by simp only [ptInRect]; omega)⟩,
        fun y hy => rects9_disjoint S a9 b9 p q hab y hy.1 _ (by simp) hy.2
          (by simp only [ptInRect]; omega)⟩
    · exact ⟨⟨b9, a9, S, b9⟩,
        ⟨by simp, (by simp only [ptInRect]; omega)⟩,
        fun y hy => rects9_disjoint S a9 b9 p q hab y hy.1 _ (by simp) hy.2
          (by simp only [ptInRect]; omega)⟩
    · exact ⟨⟨b9, b9, S, S⟩,
        ⟨by simp, (by simp only [ptInRect]; omega)⟩,
        fun y hy => rects9_disjoint S a9 b9 p q hab y hy.1 _ (by simp) hy.2
          (by simp only [ptInRect]; omega)⟩

/-- C4 witness: a 5×7 source — centered square of side 5 at offset (0, 1),
four-grid cells of side 3 clipped at 5, nine-grid cells of side 2 with
boundary `min(4,5) = 4`. -/
theorem fourNineGrid_cells_partition_witness :
    (1 ≤ 5 ∧ 1 ≤ 7 ∧ 5 = min 5 7 ∧ 3 = (5 + 1) / 2 ∧ 2 = (5 + 2) / 3 ∧
      4 = min (2 * 2) 5) ∧
    fourGridCells 5 7 = ((0, 1, 5),
      [⟨0, 0, 3, 3⟩, ⟨3, 0, 5, 3⟩, ⟨0, 3, 3, 5⟩, ⟨3, 3, 5, 5⟩]) ∧
    nineGridCells 5 7 = ((0, 1, 5),
      [⟨0, 0, 2, 2⟩, ⟨2, 0, 4, 2⟩, ⟨4, 0, 5, 2⟩,
       ⟨0, 2, 2, 4⟩, ⟨2, 2, 4, 4⟩, ⟨4, 2, 5, 4⟩,
       ⟨0, 4, 2, 5⟩, ⟨2, 4, 4, 5⟩, ⟨4, 4, 5, 5⟩]) ∧
    (∀ p q, p < 5 → q < 5 → ∃! c,
      c ∈ ([⟨0, 0, 3, 3⟩, ⟨3, 0, 5, 3⟩, ⟨0, 3, 3, 5⟩, ⟨3, 3, 5, 5⟩] :
        List Rect) ∧ ptInRect c p q) ∧
    (∀ p q, p < 5 → q < 5 → ∃! c,
      c ∈ ([⟨0, 0, 2, 2⟩, ⟨2, 0, 4, 2⟩, ⟨4, 0, 5, 2⟩,
            ⟨0, 2, 2, 4⟩, ⟨2, 2, 4, 4⟩, ⟨4, 2, 5, 4⟩,
            ⟨0, 4, 2, 5⟩, ⟨2, 4, 4, 5⟩, ⟨4, 4, 5, 5⟩] : List Rect) ∧
        ptInRect c p q) :=
  ⟨⟨by decide, by decide, by decide, by decide, by decide, by decide⟩,
   fourNineGrid_cells_partition 5 7 5 3 2 4 (by decide) (by decide)
     (by decide) (by decide) (by decide) (by decide)⟩

/-! ## Claim C1 — absolute-duration rate specs of `gifChangeFps`

The claim says a `"Nms"` spec assigns every frame `round(N)` milliseconds
and a `"Ns"` spec assigns `round(N * 1000)`.  The source's duration branch
reads `Math.round(match.groups!.m ? time * 1000 : time)`: the multiplication
by 1000 is attached to the `ms` form and the bare value to the `s` form —
exactly inverted.  Since `frameDuration` is milliseconds throughout the
codebase (both GIF decode paths store milliseconds, and the encoder emits
`frameDuration` as the per-frame delay), the spec states the evident intent
and the ternary is a slip.  The theorem evaluates the embedded code at the
failing inputs: `"40ms"` yields 40000 ms per frame (not 40) and `"2s"`
yields 2 ms per frame (not 2000). -/

/-- C1: at the failing inputs, `gifChangeFps` gives every frame duration
`round(N * 1000)` for the `"Nms"` form and `round(N)` for the `"Ns"` form —
the units the claim (and the evident intent) assign to the two forms, but
swapped. -/
theorem gifChangeFps_duration_units_swapped :
    gifChangeFps [⟨1, 1, 100, .buf 0⟩, ⟨1, 1, 50, .buf 1⟩] "40ms" true =
      .ok [⟨1, 1, 40000, .buf 0⟩, ⟨1, 1, 40000, .buf 1⟩] ∧
    gifChangeFps [⟨1, 1, 100, .buf 0⟩, ⟨1, 1, 50, .buf 1⟩] "2s" true =
      .ok [⟨1, 1, 2, .buf 0⟩, ⟨1, 1, 2, .buf 1⟩] ∧
    ¬ (40000 : ℚ) = 40 ∧ ¬ (2 : ℚ) = 2000 := by
  have h40 : "40ms".toList = ['4', '0', 'm', 's'] := rfl
  have h2 : "2s".toList = ['2', 's'] := rfl
  refine ⟨?_, ?_, by norm_num, by norm_num⟩
  · simp [gifChangeFps, matchMult, matchPct, matchFps, matchDur,
      stripEndLiteral, numFull, natOfDigits, jsRound, h40]
    norm_num
  · simp [gifChangeFps, matchMult, matchPct, matchFps, matchDur,
      stripEndLiteral, numFull, natOfDigits, jsRound, h2]
    norm_num

/-! ## Claim C5 — `parseColor` -/

/-- C5 counterexample: `parseColor "rgba(0,0,0,0.5)"` returns alpha
`0.5 × 255 = 127.5` exactly — `checkVal` only range-checks, nothing rounds —
so the claimed result `(0, 0, 0, 128)` is wrong. -/
theorem parseColor_half_alpha_not_rounded :
    parseColor "rgba(0,0,0,0.5)" = .ok (0, 0, 0, (255 : ℚ) / 2) ∧
    ¬ ((255 : ℚ) / 2 = 128) := by
  have h1 : "rgba(0,0,0,0.5)".toList =
      ['r', 'g', 'b', 'a', '(', '0', ',', '0', ',', '0', ',', '0', '.', '5', ')'] := rfl
  constructor
  · simp [parseColor, matchHex, matchRgb, matchRgbAfterParen, matchRgbBody,
      matchRgbAfterBlue, alphaCandidates, digitCandidates, firstSome,
      rgbTailEnd, isSepChar, isHexDigit, natOfDigits, checkVal, hexTuple, h1]
    norm_num
    rfl
  · norm_num

/-- C5 (amended): `parseColor "#ff0000" = (255,0,0,255)`;
`parseColor "rgba(0,0,0,0.5)" = (0,0,0,127.5)` — a fractional alpha
strictly below 1 is scaled by 255 and kept as-is, not rounded; and every
string matching neither color pattern (such as `"bogus"`) fails with
invalid-color. -/
theorem parseColor_examples :
    parseColor "#ff0000" = .ok (255, 0, 0, 255) ∧
    parseColor "rgba(0,0,0,0.5)" = .ok (0, 0, 0, (255 : ℚ) / 2) ∧
    (∀ s, matchHex s = none → matchRgb s = none →
      parseColor s = .error (.invalidColor s)) := by
  have hff : "#ff0000".toList = ['#', 'f', 'f', '0', '0', '0', '0'] := rfl
  have h1 : "rgba(0,0,0,0.5)".toList =
      ['r', 'g', 'b', 'a', '(', '0', ',', '0', ',', '0', ',', '0', '.', '5', ')'] := rfl
  refine ⟨?_, ?_, ?_⟩
  · simp [parseColor, matchHex, isHexDigit, hexVal, natOfHexDigits, hexTuple, hff]
  · simp [parseColor, matchHex, matchRgb, matchRgbAfterParen, matchRgbBody,
      matchRgbAfterBlue, alphaCandidates, digitCandidates, firstSome,
      rgbTailEnd, isSepChar, isHexDigit, natOfDigits, checkVal, hexTuple, h1]
    norm_num
    rfl
  · intro s h1s h2s
    simp only [parseColor, h1s, h2s]

/-- C5 witness: `"bogus"` matches neither pattern and fails with
invalid-color. -/
theorem parseColor_examples_witness :
    matchHex "bogus" = none ∧ matchRgb "bogus" = none ∧
    parseColor "bogus" = .error (.invalidColor "bogus") :=
  ⟨by decide, by decide,
   parseColor_examples.2.2 "bogus" (by decide) (by decide)⟩

/-! ## Claim C6 — ratio size specs are not bounded by the source height

`getRatioMatchReg` computes `size = Math.min(width / pw, width / ph)` — the
source *width* in both operands — so the produced height can exceed the
source height whenever `ph > pw` and the source is wider than tall.  The
spec itself flags this as a suspected bug (§9) while §3 states the intended
bounded best-fit behavior the claim asserts. -/

/-- C6: at source 200×100 with ratio spec `1:2`, the matcher returns
dimensions (100, 200): the returned height 200 exceeds the source height
100, violating the claimed bound. -/
theorem ratioSize_height_exceeds_source :
    ratioSize 200 100 1 2 = (100, 200) ∧ (100 : ℤ) < 200 := by
  constructor
  · simp [ratioSize]
    norm_num [Int.floor_eq_iff]
  · norm_num

/-! ## Claim C10 — `OperationError` path rewriting -/

/-- C10: every `OperationError` constructed with a message key beginning
with `'.'` gets `i18nPath = "image-tools.errors" ++ key` (the `name` export
of `utils.ts` is `"image-tools"`), and its ordered substitution parameters
are stored unchanged. -/
theorem operationError_dot_key_qualified (key : String) (params : List ErrParam)
    (h : strHeadIs '.' key = true) :
    (OperationError.make key params).i18nPath = "image-tools.errors" ++ key ∧
    (OperationError.make key params).i18nParams = params := by
  have hpath : (pluginName ++ ".errors" : String) = "image-tools.errors" := rfl
  unfold OperationError.make
  rw [if_pos h]
  exact ⟨by rw [← hpath], rfl⟩

/-- C10 witness: the `.invalid-color` key used by `parseColor`. -/
theorem operationError_dot_key_qualified_witness :
    strHeadIs '.' ".invalid-color" = true ∧
    (OperationError.make ".invalid-color" [.str "bogus"]).i18nPath =
      "image-tools.errors" ++ ".invalid-color" ∧
    (OperationError.make ".invalid-color" [.str "bogus"]).i18nParams =
      [.str "bogus"] :=
  ⟨by decide,
   operationError_dot_key_qualified ".invalid-color" [.str "bogus"] (by decide)⟩

end ImageTools
